import Mathlib

/-!
# Verification of `makedoc.py`'s `make_docs` scanning and emission logic

A shallow embedding of the line-oriented scanner of `make_docs`:
Python string primitives are modelled on `List Char`/`String`, each
detector (heading, module data, function, class), the metadata loop,
the per-file document, the run over all files and the index builder
are translated from the source.  File output is modelled as the list
of arguments passed to `write`, in order; failures (`ValueError` from
`int`, `IndexError` from `split("=")[1]`) are modelled with `Except`.
-/

namespace Makedoc

/-- The whitespace characters Python's `str.strip()` removes. -/
def wsChars : List Char := [' ', '\t', '\n', '\r', Char.ofNat 11, Char.ofNat 12]

/-- Strip every character of `chars` from both ends of `l`
(Python `s.strip(chars)` on the character list). -/
def stripBoth (chars : List Char) (l : List Char) : List Char :=
  ((l.dropWhile (fun c => chars.contains c)).reverse.dropWhile
      (fun c => chars.contains c)).reverse

/-- Python `s.strip(chars)`. -/
def pyStripChars (chars : List Char) (s : String) : String :=
  String.mk (stripBoth chars s.toList)

/-- Python `s.strip()` (no argument: strip whitespace). -/
def pyStripWs (s : String) : String := pyStripChars wsChars s

/-- Python `s.startswith(p)`. -/
def pyStartsWith (s p : String) : Bool := p.toList.isPrefixOf s.toList

/-- Python `s.endswith(p)`. -/
def pyEndsWith (s p : String) : Bool := p.toList.isSuffixOf s.toList

/-- Python `s.split(sep)` for a one-character separator, on character
lists.  The result is always nonempty. -/
def splitCharList (c : Char) : List Char → List (List Char)
  | [] => [[]]
  | x :: xs =>
    match splitCharList c xs with
    | [] => [[]]
    | b :: bs => if x = c then [] :: b :: bs else (x :: b) :: bs

/-- Python `s.split(sep)` for a one-character separator. -/
def pySplit (c : Char) (s : String) : List String :=
  (splitCharList c s.toList).map String.mk

/-- Python `s * n` for a string and a non-negative integer. -/
def pyRepeat (s : String) (n : Nat) : String := String.join (List.replicate n s)

/-- Python `s.replace(old, new)` on character lists (all occurrences,
left to right; `old` is nonempty in every use below).  The fuel
argument starts at the length of the list, which suffices because each
step consumes at least one character. -/
def replaceAux (pat repl : List Char) : Nat → List Char → List Char
  | _, [] => []
  | 0, l => l
  | fuel + 1, x :: xs =>
    if pat ≠ [] ∧ pat.isPrefixOf (x :: xs) then
      repl ++ replaceAux pat repl fuel ((x :: xs).drop pat.length)
    else
      x :: replaceAux pat repl fuel xs

/-- Python `s.replace(old, new)`. -/
def pyReplace (s pat repl : String) : String :=
  String.mk (replaceAux pat.toList repl.toList s.toList.length s.toList)

/-- Python 2 `int(s)`: optional surrounding whitespace, an optional
sign, then one or more decimal digits; anything else raises
`ValueError`, modelled as `none`. -/
def pyParseInt (s : String) : Option Int :=
  let l := stripBoth wsChars s.toList
  let signDigits : Int × List Char :=
    match l with
    | '-' :: rest => (-1, rest)
    | '+' :: rest => (1, rest)
    | rest => (1, rest)
  if signDigits.2 ≠ [] ∧ signDigits.2.all (fun c => c.isDigit) then
    some (signDigits.1 *
      Int.ofNat (signDigits.2.foldl (fun a c => a * 10 + (c.toNat - 48)) 0))
  else none

/-- A character of the class `[A-Za-z0-9_]`. -/
def identChar (c : Char) : Bool := c.isAlphanum || c == '_'

/-- Model of `re.match(r"[A-Za-z][A-Za-z0-9_]* =", line)` from the
source's `module_data_re`: the matched text, anchored at the start of
the line, or `none`.  Maximal munch agrees with the regex's
backtracking because a space is not in the starred character class. -/
def matchModuleData (line : String) : Option String :=
  match line.toList with
  | c :: rest =>
    if c.isAlpha then
      match rest.span identChar with
      | (ident, after) =>
        match after with
        | ' ' :: '=' :: _ => some (String.mk (c :: ident ++ [' ', '=']))
        | _ => none
    else none
  | [] => none

/-!
## The four per-window detectors (body loop of `make_docs`)
-/

/-- The two heading levels: `(delim, underline)` pairs, iterated in
this order by the body loop. -/
def headingStyles : List (String × String) := [("#", "-"), ("##", "~")]

/-- `line.strip(delim).strip()`: the heading text. -/
def headingText (delim line : String) : String :=
  pyStripWs (pyStripChars delim.toList line)

/-- The writes of the heading detector for one three-line window. -/
def headingLines (prev_line line next_line : String) : List String :=
  (headingStyles.map fun du =>
    if pyStartsWith prev_line du.1 && pyStartsWith line (du.1 ++ " ")
        && pyStartsWith next_line du.1 then
      ["\n" ++ headingText du.1 line ++ "\n",
       pyRepeat du.2 (headingText du.1 line).length ++ "\n\n"]
    else []).flatten

/-- The writes of the module-level data detector for one window:
the candidate regex must match at the start of the line, and the
emission is gated by a preceding doc-marker or following
triple-quote line. -/
def dataLines (prev_line line next_line : String) : List String :=
  match matchModuleData line with
  | some m =>
    if pyStartsWith prev_line "#:" || pyStartsWith next_line "\"\"\"" then
      [".. autodata:: " ++ pyReplace m " =" "" ++ "\n"]
    else []
  | none => []

/-- `line.strip("def").strip().split("(")[0]`. -/
def func_name (line : String) : String :=
  (pySplit '(' (pyStripWs (pyStripChars "def".toList line))).headD ""

/-- The writes of the function detector for one line. -/
def funcLines (line : String) : List String :=
  if pyStartsWith line "def " then
    if !(pyStartsWith (func_name line) "_") then
      [".. autofunction:: " ++ func_name line ++ "\n"]
    else []
  else []

/-- `line.strip("class").strip().split("(")[0]`. -/
def cls_name (line : String) : String :=
  (pySplit '(' (pyStripWs (pyStripChars "class".toList line))).headD ""

/-- The writes of the class detector for one line. -/
def clsLines (line : String) : List String :=
  if pyStartsWith line "class " then
    [".. autoclass:: " ++ cls_name line ++ "\n", " :members:\n"]
  else []

/-- All writes of one iteration of the body loop, in source order:
heading levels, module data, function, class. -/
def scanWindow (prev_line line next_line : String) : List String :=
  headingLines prev_line line next_line
    ++ dataLines prev_line line next_line
    ++ funcLines line ++ clsLines line

/-- The `(prev_line, line, next_line)` windows of the body loop
`for i in range(1, len(srclines) - 1)`: the current line runs over
indices `1 .. n-2`. -/
def windows : List String → List (String × String × String)
  | a :: b :: c :: rest => (a, b, c) :: windows (b :: c :: rest)
  | _ => []

/-- All writes of the body loop over a file. -/
def bodyLines (srclines : List String) : List String :=
  ((windows srclines).map (fun w => scanWindow w.1 w.2.1 w.2.2)).flatten

/-- The lines `srclines[i]` for `i in range(1, len(srclines) - 1)`:
every line except the first and the last. -/
def middleLines (srclines : List String) : List String :=
  (srclines.drop 1).dropLast

/-!
## The metadata loop (`__version__` / `__order__`)
-/

/-- `line.split("=")[1]`: `IndexError` when the line has no `=`. -/
def splitIndex1 (line : String) : Except String String :=
  match (pySplit '=' line)[1]? with
  | some v => .ok v
  | none => .error "IndexError: list index out of range"

/-- `v.strip("\n").strip()`, applied to both metadata values. -/
def stripValue (v : String) : String := pyStripWs (pyStripChars ['\n'] v)

/-- The metadata loop over the middle lines of a file, threading the
Python variable `order` (last parsed `__order__` value).  Returns the
`":Version: …"` writes in order, the values appended to `mod_order`
by this file's `__order__` lines in order, and the final `order`.
`int` failure raises `ValueError`, aborting the run. -/
def metaScan : List String → Option Int →
    Except String (List String × List Int × Option Int)
  | [], order => .ok ([], [], order)
  | line :: rest, order =>
    if pyStartsWith line "__version__" then
      match splitIndex1 line with
      | .error e => .error e
      | .ok v =>
        match metaScan rest order with
        | .error e => .error e
        | .ok (vs, os, o) => .ok ((":Version: " ++ stripValue v ++ "\n") :: vs, os, o)
    else if pyStartsWith line "__order__" then
      match splitIndex1 line with
      | .error e => .error e
      | .ok v =>
        match pyParseInt (stripValue v) with
        | none => .error ("ValueError: invalid literal for int(): " ++ stripValue v)
        | some n =>
          match metaScan rest (some n) with
          | .error e => .error e
          | .ok (vs, os, o) => .ok (vs, n :: os, o)
    else metaScan rest order

/-!
## Per-file processing and the whole run
-/

/-- Python truthiness of the `order` variable at `if not order:` after
the metadata loop: true when `order` is `None` or `0`. -/
def orderFalsy : Option Int → Bool
  | none => true
  | some n => n == 0

/-- The first three writes of a module document: name, underline of
equal signs, date placeholder. -/
def headerLines (mod_name : String) : List String :=
  [mod_name ++ "\n", pyRepeat "=" mod_name.length ++ "\n\n", ":Date: |today|\n"]

/-- The two binding-directive writes. -/
def directiveLines (mod_name : String) : List String :=
  [".. currentmodule:: " ++ mod_name ++ "\n",
   ".. automodule:: " ++ mod_name ++ "\n"]

/-- One file of the main loop: the document's writes in order (header,
version lines from the metadata loop, directives, body), the explicit
orders this file appended to `mod_order`, and the final `order`
variable. -/
def processFile (mod_name : String) (srclines : List String) :
    Except String (List String × List Int × Option Int) :=
  match metaScan (middleLines srclines) none with
  | .error e => .error e
  | .ok (versionLines, orders, order) =>
    .ok (headerLines mod_name ++ versionLines ++ directiveLines mod_name
          ++ bodyLines srclines, orders, order)

/-- The accumulated state of the main loop over source files. -/
structure RunResult where
  docs : List (String × List String)
  mod_names : List String
  mod_order : List Int
  max_order : Int
deriving Repr, DecidableEq

/-- The main loop of `make_docs` over `(module name, source lines)`
pairs, threading `max_order` (initially 1000): each file appends its
explicit orders during the metadata loop, then `if not order:` appends
the synthetic `max_order` and advances it by 20. -/
def runFiles : List (String × List String) → Int → Except String RunResult
  | [], m => .ok ⟨[], [], [], m⟩
  | (name, src) :: rest, m =>
    match processFile name src with
    | .error e => .error e
    | .ok (doc, orders, order) =>
      match runFiles rest (if orderFalsy order then m + 20 else m) with
      | .error e => .error e
      | .ok r =>
        .ok ⟨(name, doc) :: r.docs, name :: r.mod_names,
             (orders ++ if orderFalsy order then [m] else []) ++ r.mod_order,
             r.max_order⟩

/-- Insertion placing `p` after every entry with key `≤ p.2`: folded
over the list this is Python's `list.sort(key=lambda x: x[1])` —
ascending by order value and stable on ties. -/
def insertByOrder (p : String × Int) : List (String × Int) → List (String × Int)
  | [] => [p]
  | q :: qs => if p.2 < q.2 then p :: q :: qs else q :: insertByOrder p qs

/-- `modules.sort(key=lambda x: x[1])`: stable ascending sort by the
order value. -/
def sortByOrder (l : List (String × Int)) : List (String × Int) :=
  l.foldl (fun acc p => insertByOrder p acc) []

/-- The writes of `index.rst`, in order. -/
def indexLines (dir_name preamble : String) (modules : List (String × Int)) :
    List String :=
  let msg := "Welcome to " ++ dir_name ++ "'s documentation!"
  let pre := if preamble ≠ "" then preamble ++ "\n\n" else preamble
  let msg2 := "Indices and tables"
  [msg ++ "\n", pyRepeat "=" msg.length ++ "\n\n", ":Date: |today|\n\n", pre,
   ".. toctree::\n", " :maxdepth: 3\n\n"]
  ++ (sortByOrder modules).map (fun nm => " " ++ nm.1 ++ "\n")
  ++ ["\n" ++ msg2 ++ "\n", pyRepeat "-" msg2.length ++ "\n\n",
      "* :ref:`genindex`\n", "* :ref:`modindex`\n", "* :ref:`search`\n"]

/-- The whole run of `make_docs` on an already-listed directory: the
module documents and the index writes.  `mod_names` and `mod_order`
are paired with Python 2 `zip` (truncating to the shorter list). -/
def make_docs (src_dirname preamble : String)
    (files : List (String × List String)) :
    Except String (List (String × List String) × List String) :=
  match runFiles files 1000 with
  | .error e => .error e
  | .ok r => .ok (r.docs, indexLines src_dirname preamble (r.mod_names.zip r.mod_order))

/-- The synthetic order values `runFiles` assigns, in encounter order
(one per file whose final `order` variable is falsy). -/
def synthList : List (String × List String) → Int → List Int
  | [], _ => []
  | (name, src) :: rest, m =>
    match processFile name src with
    | .error _ => []
    | .ok (_, _, order) =>
      if orderFalsy order then m :: synthList rest (m + 20) else synthList rest m

/-- An `__order__` line whose right-hand value does not parse as an
integer (`int` would raise `ValueError`); `false` when there is no
`=` at all. -/
def orderValueBad (line : String) : Bool :=
  match (pySplit '=' line)[1]? with
  | some v => (pyParseInt (stripValue v)).isNone
  | none => false

/-!
## Helper lemmas
-/

lemma startsWith_iff {s p : String} :
    pyStartsWith s p = true ↔ ∃ t, s.toList = p.toList ++ t := by
  unfold pyStartsWith
  rw [List.isPrefixOf_iff_prefix]
  constructor
  · rintro ⟨t, ht⟩; exact ⟨t, ht.symm⟩
  · rintro ⟨t, ht⟩; exact ⟨t, ht.symm⟩

lemma endsWith_iff {s p : String} :
    pyEndsWith s p = true ↔ ∃ t, s.toList = t ++ p.toList := by
  unfold pyEndsWith
  rw [List.isSuffixOf_iff_suffix]
  constructor
  · rintro ⟨t, ht⟩; exact ⟨t, ht.symm⟩
  · rintro ⟨t, ht⟩; exact ⟨t, ht.symm⟩

/-- `strip(chars)` on a list of the shape `pre ++ a :: (mid ++ [b])`
where every character of `pre` is stripped and neither `a` nor `b`
is: exactly `pre` is removed. -/
lemma stripBoth_sandwich (cs pre mid : List Char) (a b : Char)
    (hpre : ∀ c ∈ pre, cs.contains c = true)
    (ha : cs.contains a = false) (hb : cs.contains b = false) :
    stripBoth cs (pre ++ a :: (mid ++ [b])) = a :: (mid ++ [b]) := by
  unfold stripBoth
  rw [List.dropWhile_append_of_pos hpre, List.dropWhile_cons]
  simp only [ha, Bool.false_eq_true, if_false]
  rw [show (a :: (mid ++ [b])).reverse = b :: (mid.reverse ++ [a]) by simp,
    List.dropWhile_cons]
  simp only [hb, Bool.false_eq_true, if_false]
  simp

lemma stripBoth_cons_mem (cs : List Char) (a : Char) (l : List Char)
    (ha : cs.contains a = true) : stripBoth cs (a :: l) = stripBoth cs l := by
  have ha' : a ∈ cs := List.elem_iff.mp ha
  unfold stripBoth
  rw [List.dropWhile_cons]
  simp [ha']

/-- For a genuine class-definition line (ending in a newline, as every
scanned line of a `readlines` result does), `line.strip("class")`
removes exactly the `class` token, so the extracted name is the text
after the token, whitespace-stripped, up to the first `(`. -/
lemma cls_name_eq {line : String} (h1 : pyStartsWith line "class " = true)
    (h2 : pyEndsWith line "\n" = true) :
    cls_name line = (pySplit '(' (pyStripWs (String.mk (line.toList.drop 6)))).headD "" := by
  obtain ⟨t, ht⟩ := startsWith_iff.mp h1
  obtain ⟨u, hu⟩ := endsWith_iff.mp h2
  rcases t.eq_nil_or_concat with rfl | ⟨mid, b, rfl⟩
  · exfalso
    rw [ht] at hu
    have hlast := congrArg List.getLast? hu
    rw [show ("class ".toList ++ ([] : List Char)) = ['c', 'l', 'a', 's', 's'] ++ [' '] from rfl,
      show u ++ "\n".toList = u ++ ['\n'] from rfl,
      List.getLast?_concat, List.getLast?_concat] at hlast
    exact absurd (Option.some.inj hlast) (by decide)
  · rw [List.concat_eq_append] at ht
    have hb : b = '\n' := by
      have h6 : ("class ".toList ++ mid) ++ [b] = u ++ ['\n'] := by
        rw [List.append_assoc, ← ht, hu]; rfl
      have hlast := congrArg List.getLast? h6
      rw [List.getLast?_concat, List.getLast?_concat] at hlast
      exact Option.some.inj hlast
    subst hb
    have hsplit : line.toList = ['c', 'l', 'a', 's', 's'] ++ ' ' :: (mid ++ ['\n']) := by
      rw [ht, show "class ".toList = ['c', 'l', 'a', 's', 's', ' '] from rfl]
      rfl
    unfold cls_name pyStripChars
    rw [hsplit, stripBoth_sandwich _ _ _ _ _ (by decide) (by decide) (by decide)]
    rw [show List.drop 6 (['c', 'l', 'a', 's', 's'] ++ ' ' :: (mid ++ ['\n']))
        = mid ++ ['\n'] from rfl]
    unfold pyStripWs pyStripChars
    rw [show (String.mk (' ' :: (mid ++ ['\n']))).toList = ' ' :: (mid ++ ['\n']) from rfl,
      show (String.mk (mid ++ ['\n'])).toList = mid ++ ['\n'] from rfl,
      stripBoth_cons_mem _ _ _ (by decide)]

lemma not_startsWith_two {line : String} (h : pyStartsWith line "# " = true) :
    pyStartsWith line "## " = false := by
  obtain ⟨t, ht⟩ := startsWith_iff.mp h
  unfold pyStartsWith
  rw [ht]
  simp [List.isPrefixOf]

lemma not_startsWith_one {line : String} (h : pyStartsWith line "## " = true) :
    pyStartsWith line "# " = false := by
  obtain ⟨t, ht⟩ := startsWith_iff.mp h
  unfold pyStartsWith
  rw [ht]
  simp [List.isPrefixOf]

/-!
## The claims
-/

/-- C3 (counterexample): the claim says a gated `_X = ...` assignment
is emitted as a data-documentation reference; in fact the candidate
regex `[A-Za-z][A-Za-z0-9_]* =` requires a letter first, so the gated
line `_X = 1` produces no output at all. -/
theorem c3_counterexample :
    pyStartsWith "#: doc\n" "#:" = true
    ∧ matchModuleData "_X = 1\n" = none
    ∧ dataLines "#: doc\n" "_X = 1\n" "y\n" = [] := by
  refine ⟨by decide, rfl, rfl⟩

/-- C3 (amended): an assignment whose identifier begins with an
underscore never matches the candidate pattern and is never emitted;
for candidates that do match (letter-initial identifiers) no further
privacy filtering is applied: every gated candidate is emitted. -/
theorem c3_amended (prev_line line next_line : String) :
    (pyStartsWith line "_" = true →
      matchModuleData line = none ∧ dataLines prev_line line next_line = [])
    ∧ (∀ m, matchModuleData line = some m →
        (pyStartsWith prev_line "#:" || pyStartsWith next_line "\"\"\"") = true →
        dataLines prev_line line next_line
          = [".. autodata:: " ++ pyReplace m " =" "" ++ "\n"]) := by
  constructor
  · intro h
    obtain ⟨t, ht⟩ := startsWith_iff.mp h
    have ht' : line.toList = '_' :: t := ht
    have hnone : matchModuleData line = none := by
      unfold matchModuleData
      rw [ht']
      exact if_neg (by decide)
    refine ⟨hnone, ?_⟩
    unfold dataLines
    rw [hnone]
  · intro m hm hg
    unfold dataLines
    rw [hm]
    exact if_pos hg

/-- C3 (amended) at concrete inputs: the gated underscore line is
dropped, the gated letter-initial line is emitted. -/
theorem c3_amended_witness :
    (matchModuleData "_X = 1\n" = none ∧ dataLines "#: doc\n" "_X = 1\n" "y\n" = [])
    ∧ dataLines "#: doc\n" "X = 1\n" "y\n"
        = [".. autodata:: " ++ pyReplace "X =" " =" "" ++ "\n"] :=
  ⟨(c3_amended "#: doc\n" "_X = 1\n" "y\n").1 (by decide),
   (c3_amended "#: doc\n" "X = 1\n" "y\n").2 "X =" (by decide) (by decide)⟩

/-- C4: a top-level class-definition line always yields exactly two
writes — the class-documentation reference and the members-modifier
line — with no privacy filtering, and the referenced name is the text
after the `class ` token, whitespace-stripped, cut at the first `(`
(hence the whole trimmed rest when no parenthesis is present). -/
theorem c4 (line : String) (h1 : pyStartsWith line "class " = true)
    (h2 : pyEndsWith line "\n" = true) :
    clsLines line = [".. autoclass:: " ++ cls_name line ++ "\n", " :members:\n"]
    ∧ cls_name line
        = (pySplit '(' (pyStripWs (String.mk (line.toList.drop 6)))).headD "" := by
  constructor
  · unfold clsLines
    rw [h1]
    rfl
  · exact cls_name_eq h1 h2

/-- C4 at a concrete class line. -/
theorem c4_witness :
    clsLines "class Foo(Base):\n"
      = [".. autoclass:: " ++ cls_name "class Foo(Base):\n" ++ "\n", " :members:\n"]
    ∧ cls_name "class Foo(Base):\n"
        = (pySplit '(' (pyStripWs (String.mk (("class Foo(Base):\n").toList.drop 6)))).headD "" :=
  c4 "class Foo(Base):\n" (by decide) (by decide)

/-- C5: a module-data candidate line (the regex matches at the start)
is emitted exactly when the preceding line starts with `#:` or the
following line starts with a triple quote; with neither gate nothing
is written. -/
theorem c5 (prev_line line next_line m : String)
    (hm : matchModuleData line = some m) :
    dataLines prev_line line next_line
      = (if pyStartsWith prev_line "#:" || pyStartsWith next_line "\"\"\"" then
          [".. autodata:: " ++ pyReplace m " =" "" ++ "\n"]
        else [])
    ∧ (dataLines prev_line line next_line ≠ [] ↔
        (pyStartsWith prev_line "#:" = true ∨ pyStartsWith next_line "\"\"\"" = true)) := by
  have h1 : dataLines prev_line line next_line
      = (if pyStartsWith prev_line "#:" || pyStartsWith next_line "\"\"\"" then
          [".. autodata:: " ++ pyReplace m " =" "" ++ "\n"]
        else []) := by
    unfold dataLines
    rw [hm]
  refine ⟨h1, ?_⟩
  rw [h1]
  cases hp : pyStartsWith prev_line "#:" <;> cases hn : pyStartsWith next_line "\"\"\"" <;>
    simp

/-- C5 across the gate combinations at concrete inputs. -/
theorem c5_witness :
    (dataLines "#:\n" "X = 1\n" "y\n"
      = (if pyStartsWith "#:\n" "#:" || pyStartsWith "y\n" "\"\"\"" then
          [".. autodata:: " ++ pyReplace "X =" " =" "" ++ "\n"]
        else [])
    ∧ (dataLines "#:\n" "X = 1\n" "y\n" ≠ [] ↔
        (pyStartsWith "#:\n" "#:" = true ∨ pyStartsWith "y\n" "\"\"\"" = true)))
    ∧ (dataLines "a\n" "X = 1\n" "b\n" ≠ [] ↔
        (pyStartsWith "a\n" "#:" = true ∨ pyStartsWith "b\n" "\"\"\"" = true)) :=
  ⟨c5 "#:\n" "X = 1\n" "y\n" "X =" (by decide),
   (c5 "a\n" "X = 1\n" "b\n" "X =" (by decide)).2⟩

/-- C6: a top-level function-definition line whose extracted name
starts with an underscore produces no write; otherwise it produces
exactly one function-documentation reference containing the extracted
name. -/
theorem c6 (line : String) (h : pyStartsWith line "def " = true) :
    (pyStartsWith (func_name line) "_" = true → funcLines line = [])
    ∧ (pyStartsWith (func_name line) "_" = false →
        funcLines line = [".. autofunction:: " ++ func_name line ++ "\n"]) := by
  constructor
  · intro hu
    unfold funcLines
    rw [h, hu]
    rfl
  · intro hu
    unfold funcLines
    rw [h, hu]
    rfl

/-- C6 at concrete public and private function lines. -/
theorem c6_witness :
    funcLines "def foo(x):\n" = [".. autofunction:: " ++ func_name "def foo(x):\n" ++ "\n"]
    ∧ funcLines "def _hidden(x):\n" = [] :=
  ⟨(c6 "def foo(x):\n" (by decide)).2 (by decide),
   (c6 "def _hidden(x):\n" (by decide)).1 (by decide)⟩

/-- C7: a three-line window fenced by the level marker (previous and
next lines start with the marker, the current line with marker plus
space) emits a blank line, the stripped heading text, and an underline
of exactly the heading's length — `-` for level 1, `~` for level 2 —
and the two levels never both fire on one window. -/
theorem c7 (prev_line line next_line : String) :
    (pyStartsWith prev_line "#" = true → pyStartsWith line "# " = true →
      pyStartsWith next_line "#" = true →
      headingLines prev_line line next_line
        = ["\n" ++ headingText "#" line ++ "\n",
           pyRepeat "-" (headingText "#" line).length ++ "\n\n"])
    ∧ (pyStartsWith prev_line "##" = true → pyStartsWith line "## " = true →
      pyStartsWith next_line "##" = true →
      headingLines prev_line line next_line
        = ["\n" ++ headingText "##" line ++ "\n",
           pyRepeat "~" (headingText "##" line).length ++ "\n\n"]) := by
  constructor
  · intro hp hl hn
    have hl2 : pyStartsWith line "## " = false := not_startsWith_two hl
    unfold headingLines headingStyles
    simp [hp, hn, hl, hl2]
  · intro hp hl hn
    have hl1 : pyStartsWith line "# " = false := not_startsWith_one hl
    unfold headingLines headingStyles
    simp [hl1, hl, hp, hn]

/-- C7 at the two concrete windows of the claim: underline length
`len("Title") = 5` with `-`, and `len("Sub") = 3` with `~`. -/
theorem c7_witness :
    headingLines "#\n" "# Title\n" "#\n"
      = ["\n" ++ headingText "#" "# Title\n" ++ "\n",
         pyRepeat "-" (headingText "#" "# Title\n").length ++ "\n\n"]
    ∧ headingLines "##\n" "## Sub\n" "##\n"
      = ["\n" ++ headingText "##" "## Sub\n" ++ "\n",
         pyRepeat "~" (headingText "##" "## Sub\n").length ++ "\n\n"]
    ∧ headingText "#" "# Title\n" = "Title"
    ∧ (headingText "#" "# Title\n").length = 5 :=
  ⟨(c7 "#\n" "# Title\n" "#\n").1 (by decide) (by decide) (by decide),
   (c7 "##\n" "## Sub\n" "##\n").2 (by decide) (by decide) (by decide),
   by decide, by decide⟩

/-- A metadata loop that sees no `__version__` or `__order__` line
leaves everything untouched. -/
lemma metaScan_no_match (ls : List String) (o : Option Int)
    (h : ∀ l ∈ ls, pyStartsWith l "__version__" = false
      ∧ pyStartsWith l "__order__" = false) :
    metaScan ls o = .ok ([], [], o) := by
  induction ls with
  | nil => rfl
  | cons a rest ih =>
    obtain ⟨h1, h2⟩ := h a (by simp)
    unfold metaScan
    simp only [h1, h2, Bool.false_eq_true, if_false]
    exact ih fun l hl => h l (by simp [hl])

/-- A body loop whose every window emits nothing writes nothing. -/
lemma bodyLines_nil_of (ls : List String)
    (h : ∀ w ∈ windows ls, scanWindow w.1 w.2.1 w.2.2 = []) :
    bodyLines ls = [] := by
  unfold bodyLines
  rw [List.flatten_eq_nil_iff]
  intro x hx
  obtain ⟨w, hw, rfl⟩ := List.mem_map.mp hx
  exact h w hw

/-- C9: a source file in which no metadata line and no body pattern is
recognized yields exactly the header block — module name, underline,
date placeholder, and the two binding directives — and nothing else;
in particular no Version field line. -/
theorem c9 (mod_name : String) (srclines : List String)
    (hmeta : ∀ l ∈ middleLines srclines,
      pyStartsWith l "__version__" = false ∧ pyStartsWith l "__order__" = false)
    (hbody : ∀ w ∈ windows srclines, scanWindow w.1 w.2.1 w.2.2 = []) :
    processFile mod_name srclines
      = .ok ([mod_name ++ "\n", pyRepeat "=" mod_name.length ++ "\n\n",
              ":Date: |today|\n",
              ".. currentmodule:: " ++ mod_name ++ "\n",
              ".. automodule:: " ++ mod_name ++ "\n"], [], none) := by
  unfold processFile
  rw [metaScan_no_match _ _ hmeta, bodyLines_nil_of _ hbody]
  rfl

/-- C9 at a concrete pattern-free file. -/
theorem c9_witness :
    processFile "m" ["a\n", "b\n", "c\n"]
      = .ok (["m\n", pyRepeat "=" ("m" : String).length ++ "\n\n",
              ":Date: |today|\n",
              ".. currentmodule:: " ++ "m" ++ "\n",
              ".. automodule:: " ++ "m" ++ "\n"], [], none) :=
  c9 "m" ["a\n", "b\n", "c\n"] (by decide) (by decide)

/-- The output of one window depends on its next line only through
the `#`, `##` and triple-quote prefix tests. -/
lemma scanWindow_next_congr (p c s s' : String)
    (h1 : pyStartsWith s "#" = pyStartsWith s' "#")
    (h2 : pyStartsWith s "##" = pyStartsWith s' "##")
    (h3 : pyStartsWith s "\"\"\"" = pyStartsWith s' "\"\"\"") :
    scanWindow p c s = scanWindow p c s' := by
  unfold scanWindow headingLines headingStyles dataLines
  simp only [List.map_cons, List.map_nil, List.flatten_cons, List.flatten_nil]
  rw [h1, h2, h3]

/-- The output of one window depends on its previous line only through
the `#`, `##` and `#:` prefix tests. -/
lemma scanWindow_prev_congr (s s' c n : String)
    (h1 : pyStartsWith s "#" = pyStartsWith s' "#")
    (h2 : pyStartsWith s "##" = pyStartsWith s' "##")
    (h4 : pyStartsWith s "#:" = pyStartsWith s' "#:") :
    scanWindow s c n = scanWindow s' c n := by
  unfold scanWindow headingLines headingStyles dataLines
  simp only [List.map_cons, List.map_nil, List.flatten_cons, List.flatten_nil]
  rw [h1, h2, h4]

/-- The body loop ignores the last line of a file except as the
`next_line` context of the window before it. -/
lemma bodyLines_concat_congr (s s' : String)
    (h1 : pyStartsWith s "#" = pyStartsWith s' "#")
    (h2 : pyStartsWith s "##" = pyStartsWith s' "##")
    (h3 : pyStartsWith s "\"\"\"" = pyStartsWith s' "\"\"\"") :
    ∀ ls : List String, bodyLines (ls ++ [s]) = bodyLines (ls ++ [s']) := by
  have key : ∀ (n : Nat) (ls : List String), ls.length ≤ n →
      bodyLines (ls ++ [s]) = bodyLines (ls ++ [s']) := by
    intro n
    induction n with
    | zero =>
      intro ls hls
      rw [List.eq_nil_of_length_eq_zero (Nat.le_zero.mp hls)]
      rfl
    | succ n ih =>
      intro ls hls
      match ls with
      | [] => rfl
      | [a] => rfl
      | a :: b :: rest =>
        cases rest with
        | nil =>
          have e1 : bodyLines ([a, b] ++ [s]) = scanWindow a b s ++ [] := rfl
          have e2 : bodyLines ([a, b] ++ [s']) = scanWindow a b s' ++ [] := rfl
          rw [e1, e2, scanWindow_next_congr a b s s' h1 h2 h3]
        | cons c rest' =>
          have e1 : bodyLines ((a :: b :: c :: rest') ++ [s])
              = scanWindow a b c ++ bodyLines ((b :: c :: rest') ++ [s]) := rfl
          have e2 : bodyLines ((a :: b :: c :: rest') ++ [s'])
              = scanWindow a b c ++ bodyLines ((b :: c :: rest') ++ [s']) := rfl
          rw [e1, e2, ih (b :: c :: rest') (by simp at hls ⊢; omega)]
  intro ls
  exact key ls.length ls le_rfl

/-- The body loop ignores the first line of a file except as the
`prev_line` context of the window after it. -/
lemma bodyLines_cons_congr (s s' : String)
    (h1 : pyStartsWith s "#" = pyStartsWith s' "#")
    (h2 : pyStartsWith s "##" = pyStartsWith s' "##")
    (h4 : pyStartsWith s "#:" = pyStartsWith s' "#:") :
    ∀ ls : List String, bodyLines (s :: ls) = bodyLines (s' :: ls) := by
  intro ls
  match ls with
  | [] => rfl
  | [a] => rfl
  | a :: b :: rest =>
    have e1 : bodyLines (s :: a :: b :: rest)
        = scanWindow s a b ++ bodyLines (a :: b :: rest) := rfl
    have e2 : bodyLines (s' :: a :: b :: rest)
        = scanWindow s' a b ++ bodyLines (a :: b :: rest) := rfl
    rw [e1, e2, scanWindow_prev_congr s s' a b h1 h2 h4]

/-- The metadata loop never reads the last line. -/
lemma middleLines_concat (ls : List String) (s : String) :
    middleLines (ls ++ [s]) = ls.drop 1 := by
  cases ls with
  | nil => rfl
  | cons a t =>
    unfold middleLines
    simp [List.dropLast_concat]

/-- The metadata loop never reads the first line. -/
lemma middleLines_cons (s : String) (ls : List String) :
    middleLines (s :: ls) = ls.dropLast := rfl

/-- C10: every detector and the metadata scan only examine windows
whose current line has index 1 through n-2: the whole per-file result
is unchanged when the last line is replaced by any line with the same
`#`, `##` and triple-quote prefixes (its only role is `next_line`
context), or when the first line is replaced by any line with the same
`#`, `##` and `#:` prefixes (its only role is `prev_line` context); in
particular a pattern whose matching line is first or last is never
detected. -/
theorem c10 (mod_name : String) (ls : List String) (s s' : String)
    (h1 : pyStartsWith s "#" = pyStartsWith s' "#")
    (h2 : pyStartsWith s "##" = pyStartsWith s' "##")
    (h3 : pyStartsWith s "\"\"\"" = pyStartsWith s' "\"\"\"")
    (h4 : pyStartsWith s "#:" = pyStartsWith s' "#:") :
    processFile mod_name (ls ++ [s]) = processFile mod_name (ls ++ [s'])
    ∧ processFile mod_name (s :: ls) = processFile mod_name (s' :: ls) := by
  constructor
  · unfold processFile
    rw [middleLines_concat, middleLines_concat,
      bodyLines_concat_congr s s' h1 h2 h3 ls]
  · unfold processFile
    rw [middleLines_cons, middleLines_cons,
      bodyLines_cons_congr s s' h1 h2 h4 ls]

/-- C10 at a concrete input: a function definition on the final line
of a file produces no output — the file scans identically to one whose
final line is inert. -/
theorem c10_witness :
    processFile "m" (["a\n", "b\n"] ++ ["def f():\n"])
      = processFile "m" (["a\n", "b\n"] ++ ["pass\n"])
    ∧ processFile "m" ("def f():\n" :: ["a\n", "b\n"])
      = processFile "m" ("pass\n" :: ["a\n", "b\n"]) :=
  c10 "m" ["a\n", "b\n"] "def f():\n" "pass\n" (by decide) (by decide)
    (by decide) (by decide)

/-- C1 (counterexample): a file with `__order__ = 2000` followed by a
file with no declared order.  The undeclared file's synthetic value is
1000 — the counter starts at 1000 and never consults explicit values —
which is not greater than the previously assigned 2000, and the index
sorts the undeclared module before the declared one. -/
theorem c1_counterexample :
    runFiles [("a", ["h\n", "__order__ = 2000\n", "t\n"]),
              ("b", ["x\n", "y\n", "z\n"])] 1000
      = .ok ⟨[("a", ["a\n", "=\n\n", ":Date: |today|\n",
                     ".. currentmodule:: a\n", ".. automodule:: a\n"]),
              ("b", ["b\n", "=\n\n", ":Date: |today|\n",
                     ".. currentmodule:: b\n", ".. automodule:: b\n"])],
             ["a", "b"], [2000, 1000], 1020⟩
    ∧ ¬ ((1000 : Int) > 2000)
    ∧ sortByOrder (["a", "b"].zip ([2000, 1000] : List Int))
        = [("b", 1000), ("a", 2000)] :=
  ⟨rfl, by decide, rfl⟩

/-- The synthetic-counter invariant of the main loop: on a successful
run the synthetic values are `m, m+20, m+40, …` in encounter order,
each appears in `mod_order`, and the final counter sits one step past
the last synthetic value.  Explicit order values never move the
counter. -/
lemma runFiles_synth (files : List (String × List String)) :
    ∀ (m : Int) (r : RunResult), runFiles files m = .ok r →
    synthList files m
      = (List.range (synthList files m).length).map (fun i : Nat => m + 20 * (i : Int))
    ∧ (∀ x ∈ synthList files m, x ∈ r.mod_order)
    ∧ r.max_order = m + 20 * ((synthList files m).length : Int) := by
  induction files with
  | nil =>
    intro m r h
    have h' : Except.ok (⟨[], [], [], m⟩ : RunResult) = .ok r := h
    injection h' with h'
    subst h'
    simp [synthList]
  | cons f rest ih =>
    obtain ⟨name, src⟩ := f
    intro m r h
    cases hp : processFile name src with
    | error e =>
      simp only [runFiles, hp] at h
      exact Except.noConfusion h
    | ok triple =>
      obtain ⟨doc, orders, order⟩ := triple
      cases hr : runFiles rest (if orderFalsy order then m + 20 else m) with
      | error e =>
        simp only [runFiles, hp, hr] at h
        exact Except.noConfusion h
      | ok r' =>
        simp only [runFiles, hp, hr, Except.ok.injEq] at h
        subst h
        have hsynth : synthList ((name, src) :: rest) m
            = if orderFalsy order then m :: synthList rest (m + 20)
              else synthList rest m := by
          simp [synthList, hp]
        rw [hsynth]
        cases ho : orderFalsy order with
        | true =>
          simp only [ho, if_true] at hr ⊢
          obtain ⟨ha, hb, hc⟩ := ih (m + 20) r' hr
          refine ⟨?_, ?_, ?_⟩
          · rw [List.length_cons, List.range_succ_eq_map, List.map_cons,
              List.map_map]
            congr 1
            · simp
            · rw [ha]
              simp only [List.length_map, List.length_range]
              refine List.map_congr_left fun i _ => ?_
              simp only [Function.comp_apply]
              push_cast
              ring
          · intro x hx
            rcases List.mem_cons.mp hx with rfl | hx
            · simp
            · have := hb x hx
              simp [this]
          · simp only [List.length_cons]
            rw [hc]
            push_cast
            ring
        | false =>
          simp only [ho, Bool.false_eq_true, if_false] at hr ⊢
          obtain ⟨ha, hb, hc⟩ := ih m r' hr
          refine ⟨ha, ?_, hc⟩
          intro x hx
          have := hb x hx
          simp [this]

/-- C1 (amended): each synthetic order value is strictly greater than
every synthetic value previously assigned in the run and successive
synthetic values increase by the fixed step 20 from the base value of
the counter — but explicit order values are not folded into the
counter, so an undeclared module need not sort after a module whose
declared order is at least as large as the counter. -/
theorem c1_amended (files : List (String × List String)) (m : Int)
    (r : RunResult) (h : runFiles files m = .ok r) :
    List.Pairwise (· < ·) (synthList files m)
    ∧ synthList files m
        = (List.range (synthList files m).length).map (fun i : Nat => m + 20 * (i : Int))
    ∧ ∀ x ∈ synthList files m, x ∈ r.mod_order := by
  obtain ⟨ha, hb, _⟩ := runFiles_synth files m r h
  refine ⟨?_, ha, hb⟩
  rw [ha]
  refine List.Pairwise.map _ (fun a b hab => ?_) (List.pairwise_lt_range _)
  omega

/-- C1 (amended) on a concrete run of two order-free files: synthetic
values 1000 and 1020. -/
theorem c1_amended_witness :
    List.Pairwise (· < ·) (synthList [("a", []), ("b", [])] 1000)
    ∧ synthList [("a", []), ("b", [])] 1000
        = (List.range (synthList [("a", []), ("b", [])] 1000).length).map
            (fun i : Nat => (1000 : Int) + 20 * (i : Int))
    ∧ ∀ x ∈ synthList [("a", []), ("b", [])] 1000,
        x ∈ (RunResult.mk
          [("a", ["a\n", "=\n\n", ":Date: |today|\n",
                  ".. currentmodule:: a\n", ".. automodule:: a\n"]),
           ("b", ["b\n", "=\n\n", ":Date: |today|\n",
                  ".. currentmodule:: b\n", ".. automodule:: b\n"])]
          ["a", "b"] [1000, 1020] 1040).mod_order :=
  c1_amended [("a", []), ("b", [])] 1000 _ rfl

/-- C2 (the code at the failing input): a file declaring
`__order__ = 0` appends both its parsed 0 and, because `if not order:`
treats 0 as absent, the synthetic 1000; so two files yield three order
values, and Python 2 `zip` silently pairs the second module with the
first module's synthetic order while its own declared 5 is dropped. -/
theorem c2_failing_eval :
    runFiles [("m1", ["h\n", "__order__ = 0\n", "t\n"]),
              ("m2", ["h\n", "__order__ = 5\n", "t\n"])] 1000
      = .ok ⟨[("m1", ["m1\n", "==\n\n", ":Date: |today|\n",
                      ".. currentmodule:: m1\n", ".. automodule:: m1\n"]),
              ("m2", ["m2\n", "==\n\n", ":Date: |today|\n",
                      ".. currentmodule:: m2\n", ".. automodule:: m2\n"])],
             ["m1", "m2"], [0, 1000, 5], 1020⟩
    ∧ (["m1", "m2"] : List String).length ≠ ([0, 1000, 5] : List Int).length
    ∧ ["m1", "m2"].zip ([0, 1000, 5] : List Int) = [("m1", 0), ("m2", 1000)] :=
  ⟨rfl, by decide, rfl⟩

/-- A line cannot start with both metadata markers. -/
lemma not_version_and_order {l : String}
    (hv : pyStartsWith l "__version__" = true)
    (ho : pyStartsWith l "__order__" = true) : False := by
  obtain ⟨t, ht⟩ := startsWith_iff.mp hv
  obtain ⟨u, hu⟩ := startsWith_iff.mp ho
  rw [ht] at hu
  have h2 : ('_' :: '_' :: 'v' :: 'e' :: 'r' :: 's' :: 'i' :: 'o' :: 'n' :: '_' :: '_' :: []) ++ t
      = ('_' :: '_' :: 'o' :: 'r' :: 'd' :: 'e' :: 'r' :: '_' :: '_' :: []) ++ u := hu
  simp only [List.cons_append, List.cons.injEq] at h2
  exact absurd h2.2.2.1 (by decide)

/-- The metadata loop over a line list containing an `__order__` line
with a non-integer value always aborts with an error. -/
lemma metaScan_error (ls : List String) :
    (∃ l ∈ ls, pyStartsWith l "__order__" = true ∧ orderValueBad l = true) →
    ∀ o : Option Int, ∃ e, metaScan ls o = .error e := by
  induction ls with
  | nil => rintro ⟨l, hl, _⟩; exact absurd hl (List.not_mem_nil l)
  | cons a rest ih =>
    rintro ⟨l, hl, hlo, hlb⟩ o
    by_cases hv : pyStartsWith a "__version__" = true
    · have hla : l ≠ a := fun he => not_version_and_order hv (he ▸ hlo)
      have hrest : l ∈ rest := (List.mem_cons.mp hl).resolve_left hla
      cases hs : splitIndex1 a with
      | error e2 => exact ⟨e2, by simp [metaScan, hv, hs]⟩
      | ok v =>
        obtain ⟨e, he⟩ := ih ⟨l, hrest, hlo, hlb⟩ o
        exact ⟨e, by simp [metaScan, hv, hs, he]⟩
    · rw [Bool.not_eq_true] at hv
      by_cases ho : pyStartsWith a "__order__" = true
      · cases hs : splitIndex1 a with
        | error e2 => exact ⟨e2, by simp [metaScan, hv, ho, hs]⟩
        | ok v =>
          cases hpi : pyParseInt (stripValue v) with
          | none =>
            exact ⟨"ValueError: invalid literal for int(): " ++ stripValue v,
              by simp [metaScan, hv, ho, hs, hpi]⟩
          | some n =>
            have hla : l ≠ a := by
              intro he
              subst he
              unfold orderValueBad at hlb
              unfold splitIndex1 at hs
              cases hg : (pySplit '=' l)[1]? with
              | none =>
                rw [hg] at hs
                exact Except.noConfusion hs
              | some w =>
                rw [hg] at hs hlb
                have hs' : (Except.ok w : Except String String) = .ok v := hs
                have hlb' : (pyParseInt (stripValue w)).isNone = true := hlb
                injection hs' with hsv
                rw [hsv, hpi] at hlb'
                exact Bool.noConfusion hlb'
            have hrest : l ∈ rest := (List.mem_cons.mp hl).resolve_left hla
            obtain ⟨e, he⟩ := ih ⟨l, hrest, hlo, hlb⟩ (some n)
            exact ⟨e, by simp [metaScan, hv, ho, hs, hpi, he]⟩
      · rw [Bool.not_eq_true] at ho
        have hla : l ≠ a := fun he => by
          rw [he] at hlo
          rw [ho] at hlo
          exact Bool.noConfusion hlo
        obtain ⟨e, he⟩ := ih ⟨l, (List.mem_cons.mp hl).resolve_left hla, hlo, hlb⟩ o
        exact ⟨e, by simp [metaScan, hv, ho, he]⟩

/-- The main loop aborts with one error as soon as a file whose
`__order__` value is invalid is reached, whatever comes after it. -/
lemma runFiles_error (name : String) (lines : List String)
    (hbad : ∃ l ∈ middleLines lines,
      pyStartsWith l "__order__" = true ∧ orderValueBad l = true) :
    ∀ (pre : List (String × List String)) (m : Int),
      ∃ e, ∀ post : List (String × List String),
        runFiles (pre ++ (name, lines) :: post) m = .error e := by
  intro pre
  induction pre with
  | nil =>
    intro m
    obtain ⟨e, he⟩ := metaScan_error (middleLines lines) hbad none
    refine ⟨e, fun post => ?_⟩
    simp only [List.nil_append]
    simp [runFiles, processFile, he]
  | cons f pre' ih =>
    obtain ⟨n0, s0⟩ := f
    intro m
    cases hp : processFile n0 s0 with
    | error e0 =>
      refine ⟨e0, fun post => ?_⟩
      simp only [List.cons_append]
      simp [runFiles, hp]
    | ok triple =>
      obtain ⟨doc, orders, order⟩ := triple
      obtain ⟨e, he⟩ := ih (if orderFalsy order then m + 20 else m)
      refine ⟨e, fun post => ?_⟩
      simp only [List.cons_append]
      simp [runFiles, hp, he post]

/-- C8: if any file's `__order__` line carries a value that is not a
valid integer, the whole run fails with one error: the result carries
no index document, and the error is the same whatever files follow
the offending one — no later file influences the outcome and there is
no per-file recovery. -/
theorem c8 (dir preamble name : String) (lines : List String)
    (pre : List (String × List String))
    (hbad : ∃ l ∈ middleLines lines,
      pyStartsWith l "__order__" = true ∧ orderValueBad l = true) :
    ∃ e, ∀ post : List (String × List String),
      make_docs dir preamble (pre ++ (name, lines) :: post) = .error e := by
  obtain ⟨e, he⟩ := runFiles_error name lines hbad pre 1000
  refine ⟨e, fun post => ?_⟩
  simp [make_docs, he post]

/-- C8 at a concrete run: `__order__ = x` aborts the run with the
`ValueError`, and adding a further file after the bad one changes
nothing. -/
theorem c8_witness :
    make_docs "d" "" [("m", ["a\n", "__order__ = x\n", "b\n"]), ("z", ["p\n"])]
        = make_docs "d" "" [("m", ["a\n", "__order__ = x\n", "b\n"])]
    ∧ make_docs "d" "" [("m", ["a\n", "__order__ = x\n", "b\n"])]
        = .error "ValueError: invalid literal for int(): x" := by
  obtain ⟨e, he⟩ := c8 "d" "" "m" ["a\n", "__order__ = x\n", "b\n"] [] (by decide)
  exact ⟨((he [("z", ["p\n"])]).trans (he []).symm : _), rfl⟩

end Makedoc
